import Mathlib

/-!
Shallow embedding of the two slither detector plugins
(`src/slither/detectors/Change_Balance.py`, detector 4.1, and
`src/slither/detectors/attributes/max_transfer.py`, detector 4.2)
over the contract/function/expression model of the host framework as the
spec data model describes it, together with theorems settling the
frozen claims about them.
-/

set_option maxRecDepth 4000

namespace Slither

/-- A variable as the detectors see it: its `name` and the textual name of
its declared type, modelling the Python accesses `variable.name` and
`variable.type.name`. -/
structure SVariable where
  name : String
  typeName : String
  deriving DecidableEq

/-- A value reachable through a `.value` attribute of an `Identifier` or
`Literal` expression: the referenced state or local variable, a solidity
built-in such as `msg.value`, or a literal integer or string. -/
inductive PyVal where
  | stateVar (v : SVariable)
  | localVar (v : SVariable)
  | solidityVar (name : String)
  | intVal (n : Int)
  | strVal (s : String)
  deriving DecidableEq

/-- The binary-operator tags the detectors inspect
(`BinaryOperationType.ADD/SUB/LT/AND`); `OTHER` stands for every operator
neither detector looks at. -/
inductive BinaryOperationType where
  | ADD
  | SUB
  | LT
  | AND
  | OTHER
  deriving DecidableEq

/-- Expression trees as the two detectors consume them: the slither
`CallExpression` (of which the code only reads the textual form
`str(instruction.called)`, kept here as the `called` field), a
`BinaryOperation` with its operator tag and two children, an `Identifier`
or `Literal` carrying a `.value`, a bare `StateVariable` object in operand
position (what `_is_balance_variable` tests with `isinstance`), and
`other` for every variant neither detector inspects. -/
inductive SExpr where
  | call (called : String) (args : List SExpr)
  | binop (ty : BinaryOperationType) (left right : SExpr)
  | ident (value : PyVal)
  | lit (value : PyVal)
  | stateVarE (v : SVariable)
  | other

/-- Character-list helper for the Python substring test: does the first list
occur at the start of the second? -/
def prefixOfChars : List Char → List Char → Bool
  | [], _ => true
  | _ :: _, [] => false
  | c :: cs, d :: ds => c == d && prefixOfChars cs ds

/-- Character-list helper: does the first list occur anywhere in the
second? -/
def containsChars (needle : List Char) : List Char → Bool
  | [] => prefixOfChars needle []
  | d :: ds => prefixOfChars needle (d :: ds) || containsChars needle ds

/-- The Python `needle in hay` substring test on strings. -/
def strContains (hay needle : String) : Bool :=
  containsChars needle.data hay.data

/- ------------------------------------------------------------------
Detector 4.1: `ERC20ChangeBalance` (`Change_Balance.py`).
------------------------------------------------------------------ -/

/-- `_is_balance_variable`: the operand is a `StateVariable` of declared
type `mapping(address => uint256)` named `balanceOf`
(`Change_Balance.py` lines 80-85). -/
def is_balance_variable : SExpr → Bool
  | .stateVarE v =>
      v.typeName == "mapping(address => uint256)" && v.name == "balanceOf"
  | _ => false

/-- `_is_balance_altering_instruction`: a `CallExpression` where the
textual form of the callee contains the substring `transfer`
(`Change_Balance.py` lines 58-62). -/
def is_balance_altering_instruction : SExpr → Bool
  | .call called _ => strContains called "transfer"
  | _ => false

/-- `_has_balance_altering_operations`: some instruction satisfies
`_is_balance_altering_instruction` (`Change_Balance.py` lines 52-56). -/
def has_balance_altering_operations (instructions : List SExpr) : Bool :=
  instructions.any is_balance_altering_instruction

/-- `_is_balance_increment_or_decrement_instruction`: a `BinaryOperation`
with tag `ADD` or `SUB` whose left or right operand passes
`_is_balance_variable` (`Change_Balance.py` lines 70-78). -/
def is_balance_increment_or_decrement_instruction : SExpr → Bool
  | .binop ty l r =>
      (ty == .ADD || ty == .SUB)
        && (is_balance_variable l || is_balance_variable r)
  | _ => false

/-- `_performs_balance_increment_or_decrement`: some instruction satisfies
`_is_balance_increment_or_decrement_instruction`
(`Change_Balance.py` lines 64-68). -/
def performs_balance_increment_or_decrement (instructions : List SExpr) : Bool :=
  instructions.any is_balance_increment_or_decrement_instruction

/-- A function modifier, exposing only its `name`. -/
structure SModifier where
  name : String
  deriving DecidableEq

/-- A function as detector 4.1 consumes it: `f.name`, `f.modifiers`,
`f.instructions`. -/
structure FunctionCB where
  name : String
  modifiers : List SModifier
  instructions : List SExpr

/-- A contract as detector 4.1 consumes it: `c.functions`. -/
structure ContractCB where
  name : String
  functions : List FunctionCB

/-- The allow-list `ignored_functions` of `_detect_change_balance_function`
(`Change_Balance.py` line 34). -/
def ignored_functions : List String := ["mint", "burn", "Transfer", "transferFrom"]

/-- The nested guard of `_detect_change_balance_function`
(`Change_Balance.py` lines 37-40): the name is off the allow-list, some
modifier is named exactly `onlyOwner`, and both instruction scans
succeed. -/
def passes_change_balance_filter (f : FunctionCB) : Bool :=
  !(ignored_functions.contains f.name)
    && f.modifiers.any (fun m => m.name == "onlyOwner")
    && has_balance_altering_operations f.instructions
    && performs_balance_increment_or_decrement f.instructions

/-- `_detect_change_balance_function` (`Change_Balance.py` lines 32-43):
the names of the functions passing the nested guard, appended in order. -/
def detect_change_balance_function (c : ContractCB) : List String :=
  (c.functions.filter passes_change_balance_filter).map FunctionCB.name

/-- The output record shape of the host (contract, element name, free
text); the `_detect` of detector 4.1 never constructs one. -/
inductive Output where
  | mk (contract_name : String) (element : String) (msg : String)
  deriving DecidableEq

/-- `ERC20ChangeBalance._detect` (`Change_Balance.py` lines 45-50):
initialises `results = []` and returns it; no other statement runs. -/
def changeBalance_detect (_contracts : List ContractCB) : List Output :=
  []

/- ------------------------------------------------------------------
Detector 4.2: `ERC20TransferLimit` (`max_transfer.py`).
------------------------------------------------------------------ -/

/-- The type tag of a CFG node: the code only distinguishes
`NodeType.EXPRESSION` from everything else. -/
inductive NodeType where
  | EXPRESSION
  | OTHERNODE
  deriving DecidableEq

/-- A CFG node: its type tag and the optional expression root it carries
(`node.type`, `node.expression`). -/
structure SNode where
  type : NodeType
  expression : Option SExpr

/-- A function as detector 4.2 consumes it: `f.name`, its canonical
signature string, and the node sequence `f.all_nodes()`. -/
structure FunctionTL where
  name : String
  signature : String
  all_nodes : List SNode

/-- A contract as detector 4.2 consumes it: `c.is_token` and its functions,
looked up by signature. -/
structure ContractTL where
  name : String
  is_token : Bool
  functions : List FunctionTL

/-- The host lookup `contract.get_function_from_signature`: the first function
whose canonical signature equals the given string, if any. -/
def get_function_from_signature (c : ContractTL) (sig : String) : Option FunctionTL :=
  c.functions.find? (fun f => f.signature == sig)

/-- The `transfer_signatures` list of `_get_transfer_functions`
(`max_transfer.py` lines 63-66). -/
def transfer_signatures : List String :=
  ["transfer(address,uint256)", "transferFrom(address,address,uint256)"]

/-- `_get_transfer_functions` (`max_transfer.py` lines 61-71): for each
canonical signature in order, look the function up and keep it when the
lookup succeeds; a failed lookup is silently skipped. -/
def get_transfer_functions (c : ContractTL) : List FunctionTL :=
  transfer_signatures.filterMap (get_function_from_signature c)

/-- `_is_transfer_require` (`max_transfer.py` lines 91-100): a
`BinaryOperation` with tag `LT`, an `Identifier` on the left, a `Literal`
on the right, the `.value` of the identifier a `StateVariable` whose
`type.name` is `uint256`, and the `.value` of the literal an `int`. (`Literal`
is unimported in the Python source; per the spec it is read as the
literal-typed leaf of the expression sum type.) -/
def is_transfer_require : SExpr → Bool
  | .binop .LT (.ident lv) (.lit rv) =>
      (match lv with
        | .stateVar v => v.typeName == "uint256"
        | _ => false)
        && (match rv with
            | .intVal _ => true
            | _ => false)
  | _ => false

/-- `_is_transfer_require_statement` (`max_transfer.py` lines 83-89): a
`BinaryOperation` with tag `AND` whose two children each pass
`_is_transfer_require`. -/
def is_transfer_require_statement : SExpr → Bool
  | .binop .AND l r => is_transfer_require l && is_transfer_require r
  | _ => false

/-- A Python runtime fault the embedded code can raise: an
`AttributeError` on the named attribute. -/
inductive PyErr where
  | attributeError (attr : String)
  deriving DecidableEq

/-- Python attribute access `e.value` on an expression object: `Identifier`
and `Literal` carry a `value` attribute; `BinaryOperation`,
`CallExpression` and the rest do not, so access on them is an
`AttributeError` (modelled by `none`). -/
def SExpr.valueAttr : SExpr → Option PyVal
  | .ident v => some v
  | .lit v => some v
  | _ => none

/-- Python `x == "msg.value"` on a `.value` attribute: only a string equal
to the literal text compares true; variable objects and ints compare
unequal to a `str`. -/
def pyEqStr (v : PyVal) (s : String) : Bool :=
  match v with
  | .strVal t => t == s
  | _ => false

/-- `_get_transfer_limit` (`max_transfer.py` lines 102-108), applied by
`_detect_transfer_limit` to the whole matched `AND` expression: read
`exp.expression_left.value`, compare with `"msg.value"`, symmetrically on
the right, else return `None`. A missing attribute propagates as an
`AttributeError`. -/
def get_transfer_limit (exp : SExpr) : Except PyErr (Option PyVal) :=
  match exp with
  | .binop _ l r =>
      match l.valueAttr with
      | none => .error (.attributeError "value")
      | some lv =>
          if pyEqStr lv "msg.value" then
            match r.valueAttr with
            | none => .error (.attributeError "value")
            | some rv => .ok (some rv)
          else
            match r.valueAttr with
            | none => .error (.attributeError "value")
            | some rv =>
                if pyEqStr rv "msg.value" then .ok (some lv)
                else .ok (none)
  | _ => .error (.attributeError "expression_left")

/-- The node scan of `_detect_transfer_limit` (`max_transfer.py` lines
73-81): walk the nodes in order; at the first `EXPRESSION`-typed node
whose expression passes `_is_transfer_require_statement`, evaluate
`_get_transfer_limit` on it and stop; otherwise keep `None`. -/
def detect_transfer_limit_nodes : List SNode → Except PyErr (Option PyVal)
  | [] => .ok none
  | n :: rest =>
      if n.type == .EXPRESSION then
        match n.expression with
        | some e =>
            if is_transfer_require_statement e then get_transfer_limit e
            else detect_transfer_limit_nodes rest
        | none => detect_transfer_limit_nodes rest
      else detect_transfer_limit_nodes rest

/-- `_detect_transfer_limit` on a function: scan `f.all_nodes()`. -/
def detect_transfer_limit (f : FunctionTL) : Except PyErr (Option PyVal) :=
  detect_transfer_limit_nodes f.all_nodes

/-- A finding of detector 4.2, as `generate_result(contract,
transfer_function.name, transfer_limit)` records it. -/
structure Finding where
  contract_name : String
  function_name : String
  limit : PyVal
  deriving DecidableEq

/-- The inner loop of `ERC20TransferLimit._detect` (`max_transfer.py`
lines 53-57) for one token contract: for each transfer function, compute
its limit and append a finding when the limit is not `None`. -/
def detect_contract_transfer_limits (c : ContractTL) (acc : List Finding) :
    Except PyErr (List Finding) :=
  (get_transfer_functions c).foldlM
    (fun acc2 f => do
      let lim ← detect_transfer_limit f
      match lim with
      | some v => pure (acc2 ++ [⟨c.name, f.name, v⟩])
      | none => pure acc2)
    acc

/-- `ERC20TransferLimit._detect` (`max_transfer.py` lines 48-59): fold the
inner loop over the contracts flagged `is_token`, starting from the empty
result list. -/
def transferLimit_detect (contracts : List ContractTL) : Except PyErr (List Finding) :=
  contracts.foldlM
    (fun acc c =>
      if c.is_token then detect_contract_transfer_limits c acc
      else pure acc)
    []

/- ------------------------------------------------------------------
Spec-worded guard shapes, for comparison with the matcher in the code.
------------------------------------------------------------------ -/

/-- Guard sub-comparison as the spec words it: a strict less-than between
an `Identifier` referencing a uint256-typed state variable and an integer
`Literal`, in either operand order. -/
def spec_guard_sub_comparison : SExpr → Bool
  | .binop .LT (.ident (.stateVar v)) (.lit (.intVal _)) => v.typeName == "uint256"
  | .binop .LT (.lit (.intVal _)) (.ident (.stateVar v)) => v.typeName == "uint256"
  | _ => false

/-- Guard shape as the spec words it: a logical AND of two sub-comparisons
each accepted by `spec_guard_sub_comparison`. -/
def spec_guard_shape : SExpr → Bool
  | .binop .AND l r => spec_guard_sub_comparison l && spec_guard_sub_comparison r
  | _ => false

/-- The amended sub-comparison: identifier on the left, literal on the
right, the only operand order the code accepts. -/
def spec_guard_sub_comparison_ident_left : SExpr → Bool
  | .binop .LT (.ident (.stateVar v)) (.lit (.intVal _)) => v.typeName == "uint256"
  | _ => false

/-- The amended guard shape: a logical AND of two identifier-left
sub-comparisons. -/
def spec_guard_shape_ident_left : SExpr → Bool
  | .binop .AND l r =>
      spec_guard_sub_comparison_ident_left l && spec_guard_sub_comparison_ident_left r
  | _ => false

/- ------------------------------------------------------------------
Helper lemmas.
------------------------------------------------------------------ -/

theorem passes_filter_iff {f : FunctionCB} :
    passes_change_balance_filter f = true ↔
      ignored_functions.contains f.name = false
        ∧ f.modifiers.any (fun m => m.name == "onlyOwner") = true
        ∧ has_balance_altering_operations f.instructions = true
        ∧ performs_balance_increment_or_decrement f.instructions = true := by
  simp [passes_change_balance_filter, Bool.and_eq_true, Bool.not_eq_true', and_assoc]

theorem mem_detect_change_balance {c : ContractCB} {n : String} :
    n ∈ detect_change_balance_function c ↔
      ∃ f, f ∈ c.functions ∧ passes_change_balance_filter f = true ∧ f.name = n := by
  simp only [detect_change_balance_function, List.mem_map, List.mem_filter]
  constructor
  · rintro ⟨f, ⟨hf, hp⟩, hn⟩
    exact ⟨f, hf, hp, hn⟩
  · rintro ⟨f, hf, hp, hn⟩
    exact ⟨f, ⟨hf, hp⟩, hn⟩

theorem is_transfer_require_eq_ident_left (e : SExpr) :
    is_transfer_require e = spec_guard_sub_comparison_ident_left e := by
  cases e with
  | call called args => rfl
  | ident v => rfl
  | lit v => rfl
  | stateVarE v => rfl
  | other => rfl
  | binop ty l r =>
      cases ty with
      | LT =>
          cases l with
          | ident lv =>
              cases r with
              | lit rv =>
                  cases lv <;> cases rv <;>
                    simp [is_transfer_require, spec_guard_sub_comparison_ident_left]
              | call called args => cases lv <;> rfl
              | binop ty2 l2 r2 => cases lv <;> rfl
              | ident v2 => cases lv <;> rfl
              | stateVarE v2 => cases lv <;> rfl
              | other => cases lv <;> rfl
          | call called args => rfl
          | binop ty2 l2 r2 => rfl
          | lit v => rfl
          | stateVarE v => rfl
          | other => rfl
      | ADD => rfl
      | SUB => rfl
      | AND => rfl
      | OTHER => rfl

/- ------------------------------------------------------------------
Claim theorems.
------------------------------------------------------------------ -/

/-- C1: the `_detect` entry point of detector 4.1 returns the empty result list
for every contract set; it is a stub whose body is `results = []; return
results`, so the matcher `_detect_change_balance_function` contributes
nothing to it. -/
theorem changeBalance_detect_always_empty (contracts : List ContractCB) :
    changeBalance_detect contracts = [] := rfl

/-- The concrete guard with the literal on the left of each sub-comparison:
`5 < a && 7 < b` with `a`, `b` uint256 state variables. -/
def litLeftGuard : SExpr :=
  .binop .AND
    (.binop .LT (.lit (.intVal 5)) (.ident (.stateVar ⟨"a", "uint256"⟩)))
    (.binop .LT (.lit (.intVal 7)) (.ident (.stateVar ⟨"b", "uint256"⟩)))

/-- C2 counterexample: a guard whose sub-comparisons carry the literal on
the left and the identifier on the right has the either-order shape of the
spec but is rejected by `_is_transfer_require_statement`, so the
claimed equivalence fails at this input. -/
theorem guard_shape_order_counterexample :
    spec_guard_shape litLeftGuard = true
      ∧ is_transfer_require_statement litLeftGuard = false := by
  constructor <;> rfl

/-- C2 amended: an expression passes `_is_transfer_require_statement` if
and only if it is a logical AND whose two children are each a strict
less-than with an `Identifier` referencing a uint256-typed state variable
on the left and an integer `Literal` on the right; the reversed operand
order is rejected. -/
theorem guard_shape_characterization (e : SExpr) :
    is_transfer_require_statement e = spec_guard_shape_ident_left e := by
  cases e with
  | call called args => rfl
  | ident v => rfl
  | lit v => rfl
  | stateVarE v => rfl
  | other => rfl
  | binop ty l r =>
      cases ty <;>
        simp only [is_transfer_require_statement, spec_guard_shape_ident_left,
          is_transfer_require_eq_ident_left]

/-- A concrete guard the matcher accepts: `a < 5 && b < 7` with `a`,
`b` uint256 state variables. -/
def matchedGuard : SExpr :=
  .binop .AND
    (.binop .LT (.ident (.stateVar ⟨"a", "uint256"⟩)) (.lit (.intVal 5)))
    (.binop .LT (.ident (.stateVar ⟨"b", "uint256"⟩)) (.lit (.intVal 7)))

/-- C3: on a guard accepted by `_is_transfer_require_statement`, the limit
extractor does not return the literal opposite a `msg.value` side, nor
`None`: `_get_transfer_limit` is applied to the whole `AND` expression and
reads `.value` off its left child, a `BinaryOperation`, which carries no
such attribute, so the call raises `AttributeError`. -/
theorem get_transfer_limit_raises_on_match :
    is_transfer_require_statement matchedGuard = true
      ∧ get_transfer_limit matchedGuard = .error (.attributeError "value") := by
  constructor <;> rfl

/-- A concrete token contract whose `transfer(address,uint256)` function
carries `matchedGuard` as its first expression node. -/
def matchedContract : ContractTL :=
  ⟨"Token", true,
    [⟨"transfer", "transfer(address,uint256)",
      [⟨.EXPRESSION, some matchedGuard⟩]⟩]⟩

/-- C4: a well-formed input on which the `_detect` of detector 4.2 raises
instead of returning a result list: a token contract whose transfer
function contains a guard the matcher accepts makes `_get_transfer_limit`
fault on the missing `value` attribute, and the fault propagates out of
`_detect`. -/
theorem transferLimit_detect_raises_on_matching_input :
    transferLimit_detect [matchedContract] = .error (.attributeError "value") := by
  rfl

/-- C5: every name in the matcher result comes from a function whose
instructions satisfy both predicates; a function all of whose namesakes in
the contract fail one of the two scans never contributes its name. -/
theorem change_balance_requires_both_predicates (c : ContractCB) (n : String)
    (h : ∀ f ∈ c.functions, f.name = n →
      has_balance_altering_operations f.instructions = false
        ∨ performs_balance_increment_or_decrement f.instructions = false) :
    n ∉ detect_change_balance_function c := by
  intro hmem
  rcases mem_detect_change_balance.mp hmem with ⟨f, hf, hpass, hname⟩
  rcases passes_filter_iff.mp hpass with ⟨-, -, h1, h2⟩
  rcases h f hf hname with h' | h' <;> simp_all

/-- A contract whose single function `withdraw` carries `onlyOwner` and a
transfer-like call but no balance arithmetic. -/
def cbContractOnlyCall : ContractCB :=
  ⟨"C",
    [⟨"withdraw", [⟨"onlyOwner"⟩],
      [.call "token.transfer" []]⟩]⟩

/-- C5 witness: `withdraw` satisfies only the call predicate, so it is not
reported. -/
theorem change_balance_requires_both_predicates_witness :
    "withdraw" ∉ detect_change_balance_function cbContractOnlyCall :=
  change_balance_requires_both_predicates cbContractOnlyCall "withdraw" (by decide)

/-- C6: a name all of whose bearers in the contract lack a modifier named
exactly `onlyOwner` never appears in the matcher result, whatever the
instructions of the functions. -/
theorem change_balance_requires_onlyOwner (c : ContractCB) (n : String)
    (h : ∀ f ∈ c.functions, f.name = n →
      f.modifiers.any (fun m => m.name == "onlyOwner") = false) :
    n ∉ detect_change_balance_function c := by
  intro hmem
  rcases mem_detect_change_balance.mp hmem with ⟨f, hf, hpass, hname⟩
  rcases passes_filter_iff.mp hpass with ⟨-, hmod, -, -⟩
  have := h f hf hname
  simp_all

/-- A contract whose single function `drain` satisfies both instruction
predicates but carries only an `onlyAdmin` modifier. -/
def cbContractNoOwner : ContractCB :=
  ⟨"C",
    [⟨"drain", [⟨"onlyAdmin"⟩],
      [.call "token.transfer" [],
       .binop .ADD (.stateVarE ⟨"balanceOf", "mapping(address => uint256)"⟩)
         (.lit (.intVal 1))]⟩]⟩

/-- C6 witness: `drain` has both predicates but no `onlyOwner` modifier,
so it is not reported. -/
theorem change_balance_requires_onlyOwner_witness :
    "drain" ∉ detect_change_balance_function cbContractNoOwner :=
  change_balance_requires_onlyOwner cbContractNoOwner "drain" (by decide)

/-- C7: a name on the allow-list `ignored_functions` never appears in the
matcher result, for any contract. -/
theorem change_balance_excludes_allowlist (c : ContractCB) (n : String)
    (h : n ∈ ignored_functions) :
    n ∉ detect_change_balance_function c := by
  intro hmem
  rcases mem_detect_change_balance.mp hmem with ⟨f, hf, hpass, hname⟩
  rcases passes_filter_iff.mp hpass with ⟨hig, -, -, -⟩
  rw [hname] at hig
  simp at hig
  exact hig h

/-- A contract whose single function `mint` carries `onlyOwner` and
satisfies both instruction predicates. -/
def cbContractMint : ContractCB :=
  ⟨"C",
    [⟨"mint", [⟨"onlyOwner"⟩],
      [.call "token.transfer" [],
       .binop .ADD (.stateVarE ⟨"balanceOf", "mapping(address => uint256)"⟩)
         (.lit (.intVal 1))]⟩]⟩

/-- C7 witness: `mint` qualifies on modifier and both predicates and is
still excluded by the allow-list. -/
theorem change_balance_excludes_allowlist_witness :
    "mint" ∉ detect_change_balance_function cbContractMint :=
  change_balance_excludes_allowlist cbContractMint "mint" (by decide)

/-- The condition under which the node scan of `_detect_transfer_limit`
stops at a node: an `EXPRESSION`-typed node whose expression passes
`_is_transfer_require_statement`. -/
def node_matches_guard (n : SNode) : Bool :=
  (n.type == .EXPRESSION)
    && (match n.expression with
        | some e => is_transfer_require_statement e
        | none => false)

/-- C8: the node scan is first-match-wins: when no node of `pre` matches
the guard and `n` does, the scan result over `pre ++ n :: post` is the
result over `pre ++ [n]`, so the nodes after the first match have no
effect on the outcome. -/
theorem transfer_limit_first_match_wins (pre post : List SNode) (n : SNode)
    (hpre : ∀ m ∈ pre, node_matches_guard m = false)
    (hn : node_matches_guard n = true) :
    detect_transfer_limit_nodes (pre ++ n :: post)
      = detect_transfer_limit_nodes (pre ++ [n]) := by
  induction pre with
  | nil =>
      obtain ⟨nt, nexp⟩ := n
      simp only [node_matches_guard, Bool.and_eq_true, beq_iff_eq] at hn
      obtain ⟨ht, hexp⟩ := hn
      subst ht
      cases nexp with
      | some e =>
          have hexp' : is_transfer_require_statement e = true := hexp
          simp only [List.nil_append, detect_transfer_limit_nodes]
          simp [hexp']
      | none => simp at hexp
  | cons m rest ih =>
      have hm := hpre m (List.mem_cons_self m rest)
      have hrest : ∀ x ∈ rest, node_matches_guard x = false :=
        fun x hx => hpre x (List.mem_cons_of_mem m hx)
      obtain ⟨mt, mexp⟩ := m
      cases mt with
      | EXPRESSION =>
          cases mexp with
          | some e =>
              have he : is_transfer_require_statement e = false := by
                simpa [node_matches_guard] using hm
              simp [detect_transfer_limit_nodes, he, ih hrest]
          | none => simp [detect_transfer_limit_nodes, ih hrest]
      | OTHERNODE => simp [detect_transfer_limit_nodes, ih hrest]

/-- A non-matching expression node. -/
def nodeOtherExpr : SNode :=
  ⟨.EXPRESSION, some (.binop .ADD (.lit (.intVal 1)) (.lit (.intVal 2)))⟩

/-- A first matching node, carrying `matchedGuard`. -/
def nodeMatch1 : SNode := ⟨.EXPRESSION, some matchedGuard⟩

/-- A second matching node with a different guard. -/
def nodeMatch2 : SNode :=
  ⟨.EXPRESSION, some (.binop .AND
    (.binop .LT (.ident (.stateVar ⟨"c", "uint256"⟩)) (.lit (.intVal 9)))
    (.binop .LT (.ident (.stateVar ⟨"d", "uint256"⟩)) (.lit (.intVal 11))))⟩

/-- C8 witness: with a non-matching node, then a matching one, a further
matching node leaves the scan result unchanged. -/
theorem transfer_limit_first_match_wins_witness :
    detect_transfer_limit_nodes [nodeOtherExpr, nodeMatch1, nodeMatch2]
      = detect_transfer_limit_nodes [nodeOtherExpr, nodeMatch1] :=
  transfer_limit_first_match_wins [nodeOtherExpr] [nodeMatch2] nodeMatch1
    (by decide) (by decide)

theorem transferLimit_foldlM_filter (contracts : List ContractTL)
    (acc : List Finding) :
    contracts.foldlM
        (fun a c => if c.is_token then detect_contract_transfer_limits c a else pure a)
        acc
      = (contracts.filter (fun c => c.is_token)).foldlM
          (fun a c => if c.is_token then detect_contract_transfer_limits c a else pure a)
          acc := by
  induction contracts generalizing acc with
  | nil => rfl
  | cons c cs ih =>
      by_cases hc : c.is_token
      · simp only [List.foldlM_cons, List.filter_cons, hc, if_true, ite_true]
        exact congrArg (fun k => detect_contract_transfer_limits c acc >>= k)
          (funext fun a => ih a)
      · simp only [List.foldlM_cons, List.filter_cons, hc, if_false, ite_false,
          Bool.false_eq_true]
        rw [pure_bind]
        exact ih acc

/-- C9: the `_detect` of detector 4.2 ignores every contract not flagged
`is_token` — its result over any contract set equals its result over the
token-flagged contracts alone — and the empty contract set yields the
empty finding list. -/
theorem transferLimit_detect_token_only :
    (∀ contracts : List ContractTL,
        transferLimit_detect contracts
          = transferLimit_detect (contracts.filter (fun c => c.is_token)))
      ∧ transferLimit_detect [] = .ok [] := by
  refine ⟨fun contracts => ?_, rfl⟩
  exact transferLimit_foldlM_filter contracts []

/-- C10: the allow-list check is exact and case-sensitive: a function
named `transfer` (lowercase) that carries `onlyOwner` and satisfies both
instruction predicates is reported by the matcher. -/
theorem change_balance_includes_lowercase_transfer (c : ContractCB) (f : FunctionCB)
    (hf : f ∈ c.functions) (hname : f.name = "transfer")
    (hmod : f.modifiers.any (fun m => m.name == "onlyOwner") = true)
    (h1 : has_balance_altering_operations f.instructions = true)
    (h2 : performs_balance_increment_or_decrement f.instructions = true) :
    "transfer" ∈ detect_change_balance_function c := by
  refine mem_detect_change_balance.mpr ⟨f, hf, ?_, hname⟩
  refine passes_filter_iff.mpr ⟨?_, hmod, h1, h2⟩
  rw [hname]
  decide

/-- A function named `transfer` with `onlyOwner`, a transfer-like call and
balance arithmetic. -/
def cbTransferFn : FunctionCB :=
  ⟨"transfer", [⟨"onlyOwner"⟩],
    [.call "token.transfer" [],
     .binop .SUB (.stateVarE ⟨"balanceOf", "mapping(address => uint256)"⟩)
       (.lit (.intVal 1))]⟩

/-- A contract holding only `cbTransferFn`. -/
def cbContractTransfer : ContractCB := ⟨"C", [cbTransferFn]⟩

/-- C10 witness: the lowercase `transfer` function is reported. -/
theorem change_balance_includes_lowercase_transfer_witness :
    "transfer" ∈ detect_change_balance_function cbContractTransfer :=
  change_balance_includes_lowercase_transfer cbContractTransfer cbTransferFn
    (by simp [cbContractTransfer]) rfl (by decide) (by decide) (by decide)

end Slither
